import Mathlib

/-!
Shallow embedding of the SSH-Telegram-Bot core (servers.py, utils.py).
Python strings are modelled as `String`/`List Char`; the CSV-backed server
store as an optional list of rows; the single SSH session as an explicit
state record with transport outcomes supplied as parameters.
-/

set_option linter.unusedVariables false

/-! ## Python string primitives -/

/-- Whitespace set used by Python `str.strip`, `str.split` and the regex
class `\s` (ASCII whitespace plus the Unicode space characters). -/
def pyIsSpace (c : Char) : Bool :=
  let n := c.toNat
  (0x09 ≤ n && n ≤ 0x0d) || n == 0x20 || (0x1c ≤ n && n ≤ 0x1f) ||
  n == 0x85 || n == 0xa0 || n == 0x1680 || (0x2000 ≤ n && n ≤ 0x200a) ||
  n == 0x2028 || n == 0x2029 || n == 0x202f || n == 0x205f || n == 0x3000

/-- Python `str.strip()`: drop leading and trailing whitespace. -/
def pyStrip (s : List Char) : List Char :=
  List.rdropWhile pyIsSpace (s.dropWhile pyIsSpace)

/-- Accumulator for `pySplit`; `cur` holds the current token reversed. -/
def pySplitAux (cur : List Char) : List Char → List (List Char)
  | [] => if cur.isEmpty then [] else [cur.reverse]
  | c :: cs =>
    if pyIsSpace c then
      if cur.isEmpty then pySplitAux [] cs else cur.reverse :: pySplitAux [] cs
    else pySplitAux (c :: cur) cs

/-- Python `str.split()` with no arguments: split on whitespace runs,
discarding empty tokens. -/
def pySplit (s : List Char) : List (List Char) :=
  pySplitAux [] s

/-- Python `str.startswith` on character lists. -/
def listStartsWith : List Char → List Char → Bool
  | _, [] => true
  | [], _ :: _ => false
  | c :: cs, p :: ps => c == p && listStartsWith cs ps

/-- Python substring test `pat in s` on character lists. -/
def containsSub (pat : List Char) : List Char → Bool
  | [] => listStartsWith [] pat
  | c :: cs => listStartsWith (c :: cs) pat || containsSub pat cs

/-- Python `str.lower()` (ASCII case folding). -/
def strLower (s : String) : String :=
  ⟨s.data.map Char.toLower⟩

/-- Python `sub in s` on strings. -/
def strContainsSub (s sub : String) : Bool :=
  containsSub sub.data s.data

/-! ## The regex fragment used by `validate_command`

The five dangerous patterns of utils.py use only literal characters,
`\s*` and `\s+`, so they are embedded as token lists.  Matching is
case-insensitive (`re.IGNORECASE`): input characters are case-folded
before comparison with the (lowercase) literals. -/

inductive RTok where
  | lit : Char → RTok
  | wsStar : RTok
  | wsPlus : RTok
deriving DecidableEq

/-- Backtracking loop for `\s*`: either match the continuation here, or
consume one whitespace character and continue. -/
def starLoop (k : List Char → Bool) : List Char → Bool
  | [] => k []
  | c :: cs => k (c :: cs) || (pyIsSpace c && starLoop k cs)

/-- Match a token pattern at the start of the input. -/
def reMatch : List RTok → List Char → Bool
  | [], _ => true
  | RTok.lit c :: ps, s =>
    match s with
    | [] => false
    | x :: xs => (x.toLower == c) && reMatch ps xs
  | RTok.wsStar :: ps, s => starLoop (reMatch ps) s
  | RTok.wsPlus :: ps, s =>
    match s with
    | [] => false
    | x :: xs => pyIsSpace x && starLoop (reMatch ps) xs

/-- Python `re.search`: match the pattern at some position of the input. -/
def reSearch (ps : List RTok) : List Char → Bool
  | [] => reMatch ps []
  | c :: cs => reMatch ps (c :: cs) || reSearch ps cs

/-- The `dangerous_patterns` list of utils.py `validate_command`. -/
def dangerous_patterns : List (List RTok) :=
  [ [RTok.lit ';', RTok.wsStar, RTok.lit 'r', RTok.lit 'm', RTok.wsPlus,
     RTok.lit '-', RTok.lit 'r', RTok.lit 'f'],
    [RTok.lit '&', RTok.lit '&', RTok.wsStar, RTok.lit 'r', RTok.lit 'm',
     RTok.wsPlus, RTok.lit '-', RTok.lit 'r', RTok.lit 'f'],
    [RTok.lit '|', RTok.wsStar, RTok.lit 'r', RTok.lit 'm', RTok.wsPlus,
     RTok.lit '-', RTok.lit 'r', RTok.lit 'f'],
    [RTok.lit '>', RTok.wsStar, RTok.lit '/', RTok.lit 'd', RTok.lit 'e',
     RTok.lit 'v', RTok.lit '/'],
    [RTok.lit '<', RTok.wsStar, RTok.lit '/', RTok.lit 'd', RTok.lit 'e',
     RTok.lit 'v', RTok.lit '/'] ]

/-! ## utils.validate_command and utils.sanitize_input -/

/-- utils.py `validate_command(command, blocked_commands, allowed_prefixes)`.
Returns `(is_valid, error_message)`.  Check order is exactly the source's:
blocklist substring scan first (first match wins, reason cites the entry),
then the dangerous-pattern regexes (generic reason), then the optional
allow-list check on the lowercased first whitespace token. -/
def validate_command (command : String) (blocked_commands : List String)
    (allowed_prefixes : Option (List String)) : Bool × Option String :=
  let cmd : String := ⟨pyStrip command.data⟩
  match blocked_commands.find? (fun b => strContainsSub (strLower cmd) (strLower b)) with
  | some blocked => (false, some ("Command contains blocked pattern: " ++ blocked))
  | none =>
    if dangerous_patterns.any (fun pat => reSearch pat cmd.data) then
      (false, some "Command contains dangerous pattern")
    else
      match allowed_prefixes with
      | none => (true, none)
      | some ps =>
        if ps.isEmpty then (true, none)
        else
          match pySplit cmd.data with
          | [] => (true, none)
          | w :: _ =>
            let first_word := w.map Char.toLower
            if ps.any (fun p => listStartsWith first_word p.data) then (true, none)
            else (false, some ("Command must start with one of: " ++
                               String.intercalate ", " ps))

/-- Character class removed by utils.py `sanitize_input`
(`[\x00-\x1f\x7f-\x9f]`). -/
def isCtrlChar (c : Char) : Bool :=
  c.toNat ≤ 0x1f || (0x7f ≤ c.toNat && c.toNat ≤ 0x9f)

/-- utils.py `sanitize_input(text)`: remove control characters, truncate to
1000 characters, then strip surrounding whitespace. -/
def sanitize_input (text : String) : String :=
  ⟨pyStrip ((text.data.filter (fun c => !(isCtrlChar c))).take 1000)⟩

/-! ## servers.py connection session

The module-level globals `_ssh_client`, `_is_connected` and
`_connected_server_info` form the session state.  The paramiko client is
opaque, so the handle slot is `Option Unit`.  Transport behaviour
(`client.connect`, `client.close`, `exec_command`) is nondeterministic
network activity, modelled by outcome parameters; each operation also
reports how many transport calls it performed, so "no transport I/O" is
expressible. -/

structure ServerInfo where
  ip : String
  username : String
  connected_at : Nat
deriving DecidableEq

structure SessionState where
  ssh_client : Option Unit
  is_connected : Bool
  connected_server_info : Option ServerInfo
deriving DecidableEq

/-- Initial values of the module globals. -/
def initialState : SessionState :=
  { ssh_client := none, is_connected := false, connected_server_info := none }

/-- Outcome of a paramiko `client.connect` call. -/
inductive ConnectOutcome where
  | ok : ConnectOutcome
  | authException : ConnectOutcome
  | sshException : String → ConnectOutcome
  | otherException : String → ConnectOutcome
deriving DecidableEq

/-- Outcome of a paramiko `client.close` call. -/
inductive CloseOutcome where
  | ok : CloseOutcome
  | error : String → CloseOutcome
deriving DecidableEq

/-- Outcome of a paramiko `exec_command` call: collected stdout/stderr
text, or an exception message. -/
inductive ExecOutcome where
  | ok : String → String → ExecOutcome
  | error : String → ExecOutcome
deriving DecidableEq

/-- servers.py `connect_to_server(server_ip, username, password)`.
Returns the new state, the `(success, error_message)` pair, and the number
of transport connection attempts made. -/
def connect_to_server (st : SessionState) (server_ip username password : String)
    (now : Nat) (outcome : ConnectOutcome) :
    SessionState × (Bool × Option String) × Nat :=
  if st.is_connected then
    (st, (false, some "Already connected to a server. Please disconnect first."), 0)
  else
    let st1 : SessionState := { st with ssh_client := some () }
    match outcome with
    | ConnectOutcome.ok =>
      ({ st1 with is_connected := true,
                  connected_server_info := some ⟨server_ip, username, now⟩ },
       (true, none), 1)
    | ConnectOutcome.authException =>
      (st1, (false, some "Authentication failed. Check username and password."), 1)
    | ConnectOutcome.sshException msg =>
      (st1, (false, some ("SSH connection error: " ++ msg)), 1)
    | ConnectOutcome.otherException msg =>
      (st1, (false, some ("Connection failed: " ++ msg)), 1)

/-- servers.py `disconnect_from_server()`.  When the client handle is
present its `close` runs and may raise; the exception handler clears the
two flags but leaves the handle slot untouched. -/
def disconnect_from_server (st : SessionState) (outcome : CloseOutcome) :
    SessionState × Bool :=
  if st.is_connected then
    match st.ssh_client, outcome with
    | some _, CloseOutcome.ok =>
      ({ ssh_client := none, is_connected := false, connected_server_info := none }, true)
    | some _, CloseOutcome.error _ =>
      ({ st with is_connected := false, connected_server_info := none }, false)
    | none, _ =>
      ({ st with is_connected := false, connected_server_info := none }, true)
  else
    (st, false)

/-- servers.py `do_command(command, timeout)`.  Returns the state (never
mutated), the `(stdout, stderr)` pair, and the number of `exec_command`
attempts made. -/
def do_command (st : SessionState) (command : String) (timeout : Nat)
    (outcome : ExecOutcome) :
    SessionState × (String × Option String) × Nat :=
  if !st.is_connected || st.ssh_client.isNone then
    (st, ("", some "Not connected to any server"), 0)
  else
    match outcome with
    | ExecOutcome.ok stdout_text stderr_text =>
      (st, (stdout_text, if stderr_text = "" then none else some stderr_text), 1)
    | ExecOutcome.error msg =>
      (st, ("", some ("Command execution failed: " ++ msg)), 1)

/-- One session-affecting operation together with its transport outcome. -/
inductive SshOp where
  | connect : String → String → String → Nat → ConnectOutcome → SshOp
  | disconnect : CloseOutcome → SshOp
  | execute : String → Nat → ExecOutcome → SshOp

def runOp (st : SessionState) : SshOp → SessionState
  | SshOp.connect ip user pw now oc => (connect_to_server st ip user pw now oc).1
  | SshOp.disconnect oc => (disconnect_from_server st oc).1
  | SshOp.execute cmd t oc => (do_command st cmd t oc).1

/-- Session state after a sequence of operations from the initial state. -/
def runOps (ops : List SshOp) : SessionState :=
  ops.foldl runOp initialState

/-- A state obtained by one successful connect, used as concrete input. -/
def connectedState : SessionState :=
  (connect_to_server initialState "10.0.0.5" "bob" "pw" 0 ConnectOutcome.ok).1

/-! ## servers.py CSV-backed server store

The store abstracts the `servers.txt` file: `none` when the file does not
exist, otherwise the parsed CSV rows in order (the header, when present,
is simply row 0).  `get_servers_data` skips row 0 and any row with fewer
than 3 fields; `add_server` appends (writing the header first when it
creates the file); `del_server` bounds-checks, pops, and rewrites
header + remaining records. -/

def headerRow : List String :=
  ["SERVER_IP", "LOGIN_USERNAME", "LOGIN_PASSWORD", "ADDED_BY", "DATE_ADDED"]

abbrev Store := Option (List (List String))

/-- servers.py `get_servers_data()`. -/
def get_servers_data (store : Store) : List (List String) :=
  match store with
  | none => []
  | some rows => (rows.drop 1).filter (fun row => 3 ≤ row.length)

/-- servers.py `add_server(server_ip, username, password, sender, timestamp)`. -/
def add_server (store : Store) (server_ip username password sender timestamp : String) :
    Store × Bool :=
  let row := [server_ip, username, password, sender, timestamp]
  match store with
  | none => (some [headerRow, row], true)
  | some rows => (some (rows ++ [row]), true)

/-- servers.py `del_server(server_number)` (1-based position). -/
def del_server (store : Store) (server_number : Int) : Store × Bool :=
  match store with
  | none => (none, false)
  | some rows =>
    let servers := get_servers_data (some rows)
    if server_number < 1 ∨ (servers.length : Int) < server_number then
      (some rows, false)
    else
      (some (headerRow :: servers.eraseIdx (server_number - 1).toNat), true)

/-- One store-mutating operation (init_files.py `initialize_files` creates
the file with just the header when absent). -/
inductive StoreOp where
  | add : String → String → String → String → String → StoreOp
  | del : Int → StoreOp
  | initFiles : StoreOp

def runStoreOp (store : Store) : StoreOp → Store
  | StoreOp.add ip user pw sender ts => (add_server store ip user pw sender ts).1
  | StoreOp.del n => (del_server store n).1
  | StoreOp.initFiles =>
    match store with
    | none => some [headerRow]
    | some rows => some rows

/-- Store state after a sequence of operations from the initial state
(file absent). -/
def runStoreOps (ops : List StoreOp) : Store :=
  ops.foldl runStoreOp none

/-- A concrete store with one record, used as witness input. -/
def sampleStore : Store :=
  some [headerRow, ["10.0.0.5", "bob", "pw", "admin1", "2024-01-01 00:00:00"]]

/-- The globals satisfy: not connected implies no stored server info. -/
def SessionInv (st : SessionState) : Prop :=
  st.is_connected = false → st.connected_server_info = none

/-- The store file is never an existing empty file: every write path puts
the header in row 0. -/
def StoreInv (store : Store) : Prop :=
  store ≠ some []

/-! ## Helper lemmas -/

theorem do_command_state_eq (st : SessionState) (cmd : String) (t : Nat)
    (oc : ExecOutcome) : (do_command st cmd t oc).1 = st := by
  unfold do_command
  split
  · rfl
  · cases oc <;> rfl

theorem sessionInv_runOp (st : SessionState) (op : SshOp) (h : SessionInv st) :
    SessionInv (runOp st op) := by
  cases op with
  | connect ip user pw now oc =>
    simp only [runOp, connect_to_server]
    by_cases hc : st.is_connected
    · simp only [hc, if_true]
      exact h
    · simp only [hc, if_false, Bool.false_eq_true]
      cases oc with
      | ok => intro hfalse; simp at hfalse
      | authException =>
        intro _
        exact h (by simpa using hc)
      | sshException m =>
        intro _
        exact h (by simpa using hc)
      | otherException m =>
        intro _
        exact h (by simpa using hc)
  | disconnect oc =>
    simp only [runOp, disconnect_from_server]
    by_cases hc : st.is_connected
    · simp only [hc, if_true]
      cases hcl : st.ssh_client with
      | none => intro _; rfl
      | some u => cases oc <;> (intro _; rfl)
    · simp only [hc, if_false, Bool.false_eq_true]
      exact h
  | execute cmd t oc =>
    simp only [runOp, do_command_state_eq]
    exact h

theorem sessionInv_foldl (ops : List SshOp) :
    ∀ st : SessionState, SessionInv st → SessionInv (ops.foldl runOp st) := by
  induction ops with
  | nil => intro st h; exact h
  | cons op rest ih =>
    intro st h
    exact ih _ (sessionInv_runOp st op h)

theorem sessionInv_runOps (ops : List SshOp) : SessionInv (runOps ops) :=
  sessionInv_foldl ops initialState (fun _ => rfl)

theorem storeInv_runOp (store : Store) (op : StoreOp) (h : StoreInv store) :
    StoreInv (runStoreOp store op) := by
  cases op with
  | add ip user pw sender ts =>
    cases store with
    | none => simp [runStoreOp, add_server, StoreInv]
    | some rows => simp [runStoreOp, add_server, StoreInv]
  | del n =>
    cases store with
    | none => simp [runStoreOp, del_server, StoreInv]
    | some rows =>
      simp only [runStoreOp, del_server]
      split
      · exact h
      · simp [StoreInv]
  | initFiles =>
    cases store with
    | none => simp [runStoreOp, StoreInv, headerRow]
    | some rows => exact h

theorem storeInv_foldl (ops : List StoreOp) :
    ∀ store : Store, StoreInv store → StoreInv (ops.foldl runStoreOp store) := by
  induction ops with
  | nil => intro s h; exact h
  | cons op rest ih =>
    intro s h
    exact ih _ (storeInv_runOp s op h)

theorem storeInv_runOps (ops : List StoreOp) : StoreInv (runStoreOps ops) :=
  storeInv_foldl ops none (by simp [StoreInv])

theorem head?_dropWhile_eq_some {α} (p : α → Bool) (l : List α) (x : α)
    (h : (l.dropWhile p).head? = some x) : p x = false := by
  induction l with
  | nil => simp [List.dropWhile] at h
  | cons a as ih =>
    rw [List.dropWhile_cons] at h
    by_cases hpa : p a
    · rw [if_pos hpa] at h
      exact ih h
    · rw [if_neg hpa] at h
      simp only [List.head?_cons, Option.some.injEq] at h
      subst h
      exact Bool.not_eq_true _ |>.mp hpa

theorem dropWhile_eq_self_of_head? {α} (p : α → Bool) (l : List α)
    (h : ∀ x, l.head? = some x → p x = false) : l.dropWhile p = l := by
  cases l with
  | nil => rfl
  | cons a as =>
    rw [List.dropWhile_cons, if_neg]
    simp [h a rfl]

theorem exists_rdropWhile_append {α} (p : α → Bool) (l : List α) :
    ∃ t, List.rdropWhile p l ++ t = l := by
  obtain ⟨t, ht⟩ := List.dropWhile_suffix (l := l.reverse) p
  refine ⟨t.reverse, ?_⟩
  have h2 := congrArg List.reverse ht
  simpa [List.rdropWhile] using h2

theorem head?_rdropWhile_eq_some {α} (p : α → Bool) (l : List α) (x : α)
    (h : (List.rdropWhile p l).head? = some x) : l.head? = some x := by
  obtain ⟨t, ht⟩ := exists_rdropWhile_append p l
  cases hr : List.rdropWhile p l with
  | nil => rw [hr] at h; simp at h
  | cons y ys =>
    rw [hr] at h ht
    simp only [List.head?_cons, Option.some.injEq] at h
    subst h
    rw [← ht]
    rfl

theorem head?_pyStrip (l : List Char) (x : Char)
    (h : (pyStrip l).head? = some x) : pyIsSpace x = false := by
  unfold pyStrip at h
  exact head?_dropWhile_eq_some _ _ _ (head?_rdropWhile_eq_some _ _ _ h)

theorem dropWhile_pyStrip (l : List Char) :
    (pyStrip l).dropWhile pyIsSpace = pyStrip l :=
  dropWhile_eq_self_of_head? _ _ (fun x hx => head?_pyStrip l x hx)

theorem rdropWhile_pyStrip (l : List Char) :
    List.rdropWhile pyIsSpace (pyStrip l) = pyStrip l := by
  unfold pyStrip
  exact List.rdropWhile_idempotent _ _

theorem pyStrip_idempotent (l : List Char) : pyStrip (pyStrip l) = pyStrip l := by
  show List.rdropWhile pyIsSpace ((pyStrip l).dropWhile pyIsSpace) = pyStrip l
  rw [dropWhile_pyStrip]
  exact rdropWhile_pyStrip l

theorem mem_pyStrip (l : List Char) (c : Char) (h : c ∈ pyStrip l) : c ∈ l := by
  unfold pyStrip at h
  obtain ⟨t, ht⟩ := exists_rdropWhile_append pyIsSpace (l.dropWhile pyIsSpace)
  have h1 : c ∈ l.dropWhile pyIsSpace := by
    rw [← ht]
    exact List.mem_append_left _ h
  exact (List.dropWhile_suffix pyIsSpace).subset h1

theorem length_pyStrip_le (l : List Char) : (pyStrip l).length ≤ l.length := by
  unfold pyStrip
  obtain ⟨t, ht⟩ := exists_rdropWhile_append pyIsSpace (l.dropWhile pyIsSpace)
  obtain ⟨t2, ht2⟩ := List.dropWhile_suffix (l := l) pyIsSpace
  have h1 := congrArg List.length ht
  have h2 := congrArg List.length ht2
  simp only [List.length_append] at h1 h2
  omega

theorem sanitize_input_data (x : String) :
    (sanitize_input x).data =
      pyStrip ((x.data.filter (fun c => !(isCtrlChar c))).take 1000) := rfl

theorem mem_sanitize_input (x : String) (c : Char)
    (h : c ∈ (sanitize_input x).data) : isCtrlChar c = false := by
  rw [sanitize_input_data] at h
  have h1 := mem_pyStrip _ _ h
  have h2 := List.take_subset _ _ h1
  rw [List.mem_filter] at h2
  simpa using h2.2

theorem length_sanitize_input_le (x : String) : (sanitize_input x).length ≤ 1000 := by
  show (sanitize_input x).data.length ≤ 1000
  rw [sanitize_input_data]
  calc (pyStrip ((x.data.filter (fun c => !(isCtrlChar c))).take 1000)).length
      ≤ ((x.data.filter (fun c => !(isCtrlChar c))).take 1000).length :=
        length_pyStrip_le _
    _ ≤ 1000 := List.length_take_le _ _

theorem sanitize_input_idem (x : String) :
    sanitize_input (sanitize_input x) = sanitize_input x := by
  have hfilter : (sanitize_input x).data.filter (fun c => !(isCtrlChar c)) =
      (sanitize_input x).data :=
    List.filter_eq_self.mpr (fun c hc => by simp [mem_sanitize_input x c hc])
  have htake : ((sanitize_input x).data).take 1000 = (sanitize_input x).data :=
    List.take_of_length_le (length_sanitize_input_le x)
  have hstrip : pyStrip (sanitize_input x).data = (sanitize_input x).data := by
    rw [sanitize_input_data]
    exact pyStrip_idempotent _
  show (⟨pyStrip (((sanitize_input x).data.filter (fun c => !(isCtrlChar c))).take 1000)⟩ : String)
      = sanitize_input x
  rw [hfilter, htake, hstrip]

/-! ## Claim theorems -/

/-- C1: at most one remote connection is held at any time: after any
sequence of connect/disconnect/execute operations that leaves the session
connected, a further connect call returns failure with the
already-connected message, performs zero transport connection attempts,
and leaves the session state unchanged. -/
theorem connect_refused_when_connected (ops : List SshOp) (ip user pw : String)
    (now : Nat) (oc : ConnectOutcome)
    (h : (runOps ops).is_connected = true) :
    connect_to_server (runOps ops) ip user pw now oc =
      (runOps ops,
       (false, some "Already connected to a server. Please disconnect first."), 0) := by
  simp [connect_to_server, h]

theorem connect_refused_when_connected_witness :
    connect_to_server (runOps [SshOp.connect "10.0.0.5" "bob" "pw" 0 ConnectOutcome.ok])
        "10.0.0.6" "eve" "pw2" 1 ConnectOutcome.ok =
      (runOps [SshOp.connect "10.0.0.5" "bob" "pw" 0 ConnectOutcome.ok],
       (false, some "Already connected to a server. Please disconnect first."), 0) :=
  connect_refused_when_connected [SshOp.connect "10.0.0.5" "bob" "pw" 0 ConnectOutcome.ok]
    "10.0.0.6" "eve" "pw2" 1 ConnectOutcome.ok (by decide)

/-- C2: for every command string and timeout, executing while the session
is idle (not connected, or the client handle absent) returns the
not-connected sentinel — empty stdout and the message
"Not connected to any server" — with zero execution attempts and no state
change. -/
theorem do_command_idle_returns_sentinel (st : SessionState) (cmd : String)
    (t : Nat) (oc : ExecOutcome)
    (h : st.is_connected = false ∨ st.ssh_client = none) :
    do_command st cmd t oc = (st, ("", some "Not connected to any server"), 0) := by
  rcases h with h | h
  · simp [do_command, h]
  · simp [do_command, h]

theorem do_command_idle_returns_sentinel_witness :
    do_command initialState "ls" 30 (ExecOutcome.ok "out" "") =
      (initialState, ("", some "Not connected to any server"), 0) :=
  do_command_idle_returns_sentinel initialState "ls" 30 (ExecOutcome.ok "out" "")
    (Or.inl rfl)

/-- C3 counterexample: from a connected state, when the close operation
errors, the transport handle slot is NOT released — `_ssh_client` keeps
its value because `_ssh_client = None` is skipped by the exception — so
the claim that the handle is released on every exit path is false. -/
theorem disconnect_error_retains_handle :
    (disconnect_from_server connectedState (CloseOutcome.error "close failed")).1.ssh_client
        = some () ∧
    (disconnect_from_server connectedState (CloseOutcome.error "close failed")).1.ssh_client
        ≠ none := by
  decide

/-- C3 amended: disconnect returns false as a no-op when already idle;
when called from a connected state the connection flags are cleared
(isConnected false, server info absent) on every exit path, but the
stored transport handle is released only on the non-error path — when the
close operation errors the handle slot keeps its value. -/
theorem disconnect_always_clears_connection_state (st : SessionState) (oc : CloseOutcome) :
    (st.is_connected = false → disconnect_from_server st oc = (st, false)) ∧
    (st.is_connected = true →
      ((disconnect_from_server st oc).1.is_connected = false ∧
       (disconnect_from_server st oc).1.connected_server_info = none) ∧
      (disconnect_from_server st oc).1.ssh_client =
        (match st.ssh_client, oc with
         | some _, CloseOutcome.error _ => st.ssh_client
         | _, _ => none)) := by
  refine ⟨fun h => ?_, fun h => ?_⟩
  · simp [disconnect_from_server, h]
  · unfold disconnect_from_server
    rw [if_pos h]
    cases hcl : st.ssh_client with
    | none => cases oc <;> simp [hcl]
    | some u => cases oc <;> simp [hcl]

theorem disconnect_always_clears_connection_state_witness :
    disconnect_from_server initialState CloseOutcome.ok = (initialState, false) ∧
    (disconnect_from_server connectedState CloseOutcome.ok).1.is_connected = false :=
  ⟨(disconnect_always_clears_connection_state initialState CloseOutcome.ok).1 rfl,
   ((disconnect_always_clears_connection_state connectedState CloseOutcome.ok).2
      (by decide)).1.1⟩

/-- C4: on any connect failure (auth rejection, SSH protocol error, other
transport error) connect returns failure with an error message and the
session stays idle — isConnected false, no server info recorded; on a
failure mid-execute, execute returns an error result and the session
state is left exactly as it was. -/
theorem connect_failure_rolls_back_and_exec_failure_preserves
    (ops : List SshOp) (ip user pw : String) (now : Nat) (oc : ConnectOutcome)
    (st : SessionState) (cmd : String) (t : Nat) (m : String)
    (hIdle : (runOps ops).is_connected = false) (hFail : oc ≠ ConnectOutcome.ok)
    (hConn : st.is_connected = true) (hCl : st.ssh_client ≠ none) :
    (connect_to_server (runOps ops) ip user pw now oc).2.1.1 = false ∧
    (connect_to_server (runOps ops) ip user pw now oc).2.1.2 ≠ none ∧
    (connect_to_server (runOps ops) ip user pw now oc).1.is_connected = false ∧
    (connect_to_server (runOps ops) ip user pw now oc).1.connected_server_info = none ∧
    do_command st cmd t (ExecOutcome.error m) =
      (st, ("", some ("Command execution failed: " ++ m)), 1) := by
  have hinfo : (runOps ops).connected_server_info = none :=
    sessionInv_runOps ops hIdle
  have hexec : do_command st cmd t (ExecOutcome.error m) =
      (st, ("", some ("Command execution failed: " ++ m)), 1) := by
    unfold do_command
    rw [hConn]
    cases hcl : st.ssh_client with
    | none => exact absurd hcl hCl
    | some u => simp
  refine ?_
  unfold connect_to_server
  rw [hIdle]
  cases oc with
  | ok => exact absurd rfl hFail
  | authException => exact ⟨rfl, by simp, by simp, by simpa using hinfo, hexec⟩
  | sshException msg => exact ⟨rfl, by simp, by simp, by simpa using hinfo, hexec⟩
  | otherException msg => exact ⟨rfl, by simp, by simp, by simpa using hinfo, hexec⟩

theorem connect_failure_rolls_back_and_exec_failure_preserves_witness :
    (connect_to_server (runOps []) "10.0.0.5" "bob" "badpw" 7 ConnectOutcome.authException).2.1.1
        = false ∧
    (connect_to_server (runOps []) "10.0.0.5" "bob" "badpw" 7 ConnectOutcome.authException).2.1.2
        ≠ none ∧
    (connect_to_server (runOps []) "10.0.0.5" "bob" "badpw" 7 ConnectOutcome.authException).1.is_connected
        = false ∧
    (connect_to_server (runOps []) "10.0.0.5" "bob" "badpw" 7 ConnectOutcome.authException).1.connected_server_info
        = none ∧
    do_command connectedState "ls" 30 (ExecOutcome.error "boom") =
      (connectedState, ("", some ("Command execution failed: " ++ "boom")), 1) :=
  connect_failure_rolls_back_and_exec_failure_preserves [] "10.0.0.5" "bob" "badpw" 7
    ConnectOutcome.authException connectedState "ls" 30 "boom" rfl (by decide) (by decide)
    (by decide)

/-- C5 counterexample: the blocklist scan runs before the dangerous-pattern
scan, so with blocklist `["foo"]` the command `"foo; rm -rf /tmp"` is
rejected by the blocklist rule with a reason that discloses the pattern
text, not by the dangerous-pattern rule with the generic reason — the
claim's "regardless of the contents of the blocked-patterns list" fails. -/
theorem blocklist_match_shadows_dangerous_reason :
    validate_command "foo; rm -rf /tmp" ["foo"] none =
      (false, some "Command contains blocked pattern: foo") ∧
    (validate_command "foo; rm -rf /tmp" ["foo"] none).2 ≠
      some "Command contains dangerous pattern" := by
  decide

/-- C5 amended: the command `"foo; rm -rf /tmp"` is rejected regardless of
the blocklist contents; when no blocklist entry matches as a
case-insensitive substring, the rejection comes from the dangerous-pattern
rule with the generic reason that discloses no pattern text. -/
theorem chained_rm_command_always_rejected (blocked : List String) :
    (validate_command "foo; rm -rf /tmp" blocked none).1 = false ∧
    (blocked.find? (fun b =>
        strContainsSub (strLower "foo; rm -rf /tmp") (strLower b)) = none →
      validate_command "foo; rm -rf /tmp" blocked none =
        (false, some "Command contains dangerous pattern")) := by
  have hstrip : (⟨pyStrip ("foo; rm -rf /tmp" : String).data⟩ : String) =
      "foo; rm -rf /tmp" := by decide
  unfold validate_command
  simp only [hstrip]
  cases hfind : blocked.find? (fun b =>
      strContainsSub (strLower "foo; rm -rf /tmp") (strLower b)) with
  | none => exact ⟨by decide, fun _ => by decide⟩
  | some b => exact ⟨rfl, fun h => absurd h (by simp)⟩

theorem chained_rm_command_always_rejected_witness :
    (validate_command "foo; rm -rf /tmp" [] none).1 = false ∧
    validate_command "foo; rm -rf /tmp" [] none =
      (false, some "Command contains dangerous pattern") :=
  ⟨(chained_rm_command_always_rejected []).1,
   (chained_rm_command_always_rejected []).2 rfl⟩

/-- C6 counterexample: command `"LS"` with allow-list `["LS"]`: the first
token starts with the allowed entry (also case-insensitively, witnessed by
the first conjunct on the case-folded strings), yet the filter rejects it,
because the code lowercases the command's first token but compares it
against the prefixes verbatim. -/
theorem allowlist_exact_match_still_rejected :
    listStartsWith ("LS".data.map Char.toLower) ("LS".data.map Char.toLower) = true ∧
    validate_command "LS" [] (some ["LS"]) =
      (false, some "Command must start with one of: LS") := by
  decide

/-- C6 amended: for every command passing the blocklist and
dangerous-pattern checks, when a non-empty allow-list is supplied and the
command has a first whitespace-delimited token, the command is accepted
exactly when the lowercased first token starts with one of the allowed
entries compared verbatim (entries are not case-folded, so matching is
case-insensitive only when the configured entries are lowercase);
otherwise it is rejected with a reason naming the allowed set. -/
theorem allowlist_checks_lowered_first_token_verbatim
    (command : String) (blocked : List String) (ps : List String)
    (w : List Char) (ws : List (List Char))
    (hB : blocked.find? (fun b =>
        strContainsSub (strLower ⟨pyStrip command.data⟩) (strLower b)) = none)
    (hD : dangerous_patterns.any
        (fun pat => reSearch pat (pyStrip command.data)) = false)
    (hP : ps.isEmpty = false)
    (hW : pySplit (pyStrip command.data) = w :: ws) :
    validate_command command blocked (some ps) =
      (if ps.any (fun p => listStartsWith (w.map Char.toLower) p.data)
       then ((true : Bool), (none : Option String))
       else (false, some ("Command must start with one of: " ++
                          String.intercalate ", " ps))) := by
  unfold validate_command
  simp only [hB, hD, hP, hW, Bool.false_eq_true, if_false]

theorem allowlist_checks_lowered_first_token_verbatim_witness :
    validate_command "ls -la" [] (some ["ls"]) = ((true : Bool), (none : Option String)) := by
  have h := allowlist_checks_lowered_first_token_verbatim "ls -la" [] ["ls"]
      "ls".data ["-la".data] (by decide) (by decide) (by decide) (by decide)
  rw [h]
  decide

/-- C7: sanitize is idempotent, its output never exceeds 1000 characters,
and the output contains no codepoint in the C0 (U+0000..U+001F) or C1
(U+0080..U+009F) control ranges. -/
theorem sanitize_input_contract (x : String) :
    sanitize_input (sanitize_input x) = sanitize_input x ∧
    (sanitize_input x).length ≤ 1000 ∧
    (sanitize_input x).data.all
      (fun c => !(c.toNat ≤ 0x1f || (0x80 ≤ c.toNat && c.toNat ≤ 0x9f))) = true := by
  refine ⟨sanitize_input_idem x, length_sanitize_input_le x, ?_⟩
  rw [List.all_eq_true]
  intro c hc
  have h := mem_sanitize_input x c hc
  simp only [isCtrlChar, Bool.or_eq_false_iff, Bool.and_eq_false_iff,
    decide_eq_false_iff_not, not_le] at h
  simp only [Bool.not_eq_true', Bool.or_eq_false_iff, Bool.and_eq_false_iff,
    decide_eq_false_iff_not, not_le]
  omega

/-- C8: after any sequence of store operations, a successful addServer
followed by listServers yields a record whose fields are exactly the
inputs, appended at the end, and the listed count grows by exactly one. -/
theorem add_server_appends_record (ops : List StoreOp) (ip user pw sender ts : String) :
    (add_server (runStoreOps ops) ip user pw sender ts).2 = true ∧
    get_servers_data (add_server (runStoreOps ops) ip user pw sender ts).1 =
      get_servers_data (runStoreOps ops) ++ [[ip, user, pw, sender, ts]] ∧
    (get_servers_data (add_server (runStoreOps ops) ip user pw sender ts).1).length =
      (get_servers_data (runStoreOps ops)).length + 1 := by
  have hinv := storeInv_runOps ops
  revert hinv
  generalize runStoreOps ops = store
  intro hinv
  cases store with
  | none =>
    refine ⟨rfl, ?_, ?_⟩ <;> simp [add_server, get_servers_data]
  | some rows =>
    cases rows with
    | nil => exact absurd rfl hinv
    | cons r rs =>
      have hrow : (decide (3 ≤ ([ip, user, pw, sender, ts] : List String).length)) = true := rfl
      refine ⟨rfl, ?_, ?_⟩
      · simp [add_server, get_servers_data, List.filter_append, hrow]
      · simp [add_server, get_servers_data, List.filter_append, hrow]

/-- C9: deleting a 1-based position outside [1, count] returns false and
leaves the store file untouched, so listing before and after agree. -/
theorem del_server_out_of_range_noop (store : Store) (n : Int)
    (h : n < 1 ∨ ((get_servers_data store).length : Int) < n) :
    del_server store n = (store, false) ∧
    get_servers_data (del_server store n).1 = get_servers_data store := by
  cases store with
  | none => exact ⟨rfl, rfl⟩
  | some rows =>
    have h1 : del_server (some rows) n = (some rows, false) := by
      simp only [del_server]
      rw [if_pos h]
    rw [h1]
    exact ⟨rfl, rfl⟩

theorem del_server_out_of_range_noop_witness :
    del_server sampleStore 0 = (sampleStore, false) ∧
    get_servers_data (del_server sampleStore 0).1 = get_servers_data sampleStore :=
  del_server_out_of_range_noop sampleStore 0 (Or.inl (by decide))

/-- C10: sanitize applies a final whitespace strip, so its output never
has leading or trailing whitespace (dropping whitespace from either end
changes nothing), and in particular sanitize " ls " is "ls". -/
theorem sanitize_input_output_stripped (s : String) :
    (sanitize_input s).data.dropWhile pyIsSpace = (sanitize_input s).data ∧
    List.rdropWhile pyIsSpace (sanitize_input s).data = (sanitize_input s).data ∧
    sanitize_input " ls " = "ls" := by
  refine ⟨?_, ?_, by decide⟩
  · rw [sanitize_input_data]
    exact dropWhile_pyStrip _
  · rw [sanitize_input_data]
    exact rdropWhile_pyStrip _
